import Mathlib

/-!
Verification of the mountstats parser and dispatch pipeline of the collectd
nfs plugin (src/nfs.c), as a shallow embedding in Lean 4.

Lines of the input report are modelled as lists of characters without the
terminating NUL byte: an empty list corresponds to the C string terminator.
The fixed-size C counter arrays are modelled as lists whose prefix is
overwritten by a successful parse, matching the partial writes of the C
loops.  Machine integers: unsigned long long is a natural number kept below
2^64 by the strtoull overflow check; time_t and long are integers bounded by
the strtol clamping.
-/

namespace CollectdNfs

/-! ### Character classes used by the C code -/

/-- The NEXT_NON_SPACE_CHAR macro of nfs.c advances over spaces and tabs only. -/
def isSpaceTab (c : Char) : Bool := c == ' ' || c == '\t'

/-- White space in the sense of the C isspace function, used by strtol and
strtoull before the optional sign (space, tab, newline, vertical tab,
form feed, carriage return). -/
def isCSpace (c : Char) : Bool :=
  c == ' ' || c == '\t' || c == '\n' || c == '\r' || c.toNat == 11 || c.toNat == 12

/-! ### Counter catalogs (nfs.c lines 207-299) -/

def nfs_event_counters : List String :=
  ["inoderevalidates", "dentryrevalidates", "datainvalidates", "attrinvalidates",
   "vfsopen", "vfslookup", "vfspermission", "vfsupdatepage", "vfsreadpage",
   "vfsreadpages", "vfswritepage", "vfswritepages", "vfsreaddir", "vfssetattr",
   "vfsflush", "vfsfsync", "vfslock", "vfsrelease", "congestionwait",
   "setattrtrunc", "extendwrite", "sillyrenames", "shortreads", "shortwrites",
   "delay"]

def NB_NFS_EVENT_COUNTERS : Nat := nfs_event_counters.length

def nfs_byte_counters : List String :=
  ["normalreadbytes", "normalwritebytes", "directreadbytes", "directwritebytes",
   "serverreadbytes", "serverwritebytes", "readpages", "writepages"]

def NB_NFS_BYTE_COUNTERS : Nat := nfs_byte_counters.length

def nfs_xprt_udp : List String :=
  ["port", "bind_count", "rpcsends", "rpcreceives", "badxids", "inflightsends",
   "backlogutil"]

def NB_NFS_XPRT_UDP : Nat := nfs_xprt_udp.length

def nfs_xprt_tcp : List String :=
  ["port", "bind_count", "connect_count", "connect_time", "idle_time",
   "rpcsends", "rpcreceives", "badxids", "inflightsends", "backlogutil"]

def NB_NFS_XPRT_TCP : Nat := nfs_xprt_tcp.length

def nfs_xprt_rdma : List String :=
  ["port", "bind_count", "connect_count", "connect_time", "idle_time",
   "rpcsends", "rpcreceives", "badxids", "backlogutil", "read_chunks",
   "write_chunks", "reply_chunks", "total_rdma_req", "total_rdma_rep",
   "pullup", "fixup", "hardway", "failed_marshal", "bad_reply"]

def NB_NFS_XPRT_RDMA : Nat := nfs_xprt_rdma.length

/-- MAX3 of the three transport catalog sizes (nfs.c line 299). -/
def NB_NFS_XPRT_ANY : Nat := max (max NB_NFS_XPRT_UDP NB_NFS_XPRT_TCP) NB_NFS_XPRT_RDMA

/-! ### libc integer parsing (strtoull / strtol, base 10) -/

def ULLONG_MAX : Nat := 2 ^ 64 - 1
def LONG_MAX : Int := 2 ^ 63 - 1
def LONG_MIN : Int := -(2 ^ 63)

def digitsToNat (ds : List Char) : Nat :=
  ds.foldl (fun a c => 10 * a + (c.toNat - '0'.toNat)) 0

structure StrtoullRes where
  value : Nat
  rest : List Char
  converted : Bool
  range_err : Bool
  deriving DecidableEq, Repr

def strtoullDigits (orig : List Char) (neg : Bool) (s2 : List Char) : StrtoullRes :=
  match s2.takeWhile Char.isDigit with
  | [] => { value := 0, rest := orig, converted := false, range_err := false }
  | ds =>
    let v := digitsToNat ds
    let rest := s2.dropWhile Char.isDigit
    if v > ULLONG_MAX then
      { value := ULLONG_MAX, rest := rest, converted := true, range_err := true }
    else
      { value := if neg then (2 ^ 64 - v) % 2 ^ 64 else v,
        rest := rest, converted := true, range_err := false }

def strtoullSigned (orig s1 : List Char) : StrtoullRes :=
  match s1 with
  | '-' :: t => strtoullDigits orig true t
  | '+' :: t => strtoullDigits orig false t
  | _ => strtoullDigits orig false s1

/-- Base-10 strtoull: skip C whitespace, optional sign (a minus negates the
value modulo 2^64), then decimal digits.  rest models endptr; converted is
false when endptr would equal the input pointer; range_err models
errno == ERANGE with the value clamped to ULLONG_MAX. -/
def strtoull (s : List Char) : StrtoullRes :=
  strtoullSigned s (s.dropWhile isCSpace)

def strtolDigits (neg : Bool) (s2 : List Char) : Int × Bool :=
  match s2.takeWhile Char.isDigit with
  | [] => (0, false)
  | ds =>
    let v : Int := (digitsToNat ds : Nat)
    let sv := if neg then -v else v
    if sv > LONG_MAX then (LONG_MAX, true)
    else if sv < LONG_MIN then (LONG_MIN, true)
    else (sv, false)

def strtolSigned (s1 : List Char) : Int × Bool :=
  match s1 with
  | '-' :: t => strtolDigits true t
  | '+' :: t => strtolDigits false t
  | _ => strtolDigits false s1

/-- Base-10 strtol as used at nfs.c line 940 with a NULL endptr: only the
value and the ERANGE flag are observable.  No conversion yields 0 without
an error; out-of-range values are clamped with the error flag set. -/
def strtol (s : List Char) : Int × Bool :=
  strtolSigned (s.dropWhile isCSpace)

/-! ### Line tokenizer: string_to_array_of_Lu (nfs.c lines 814-830) -/

/-- Parse up to n whitespace-separated unsigned long long values.  Returns
the count actually parsed (n at most), stopping with the partial count at
end of string or at a newline, and the sentinel -1 when a token fails to
convert (errno set or endptr equal to the token start).  The second
component is the list of values written to the output array. -/
def string_to_array_of_Lu : List Char → Nat → Int × List Nat
  | _, 0 => (0, [])
  | s, n + 1 =>
    match s.dropWhile isSpaceTab with
    | [] => (0, [])
    | c :: cs =>
      if c == '\n' then (0, [])
      else
        let r := strtoull (c :: cs)
        if r.range_err || !r.converted then (-1, [])
        else
          let k := string_to_array_of_Lu r.rest n
          if k.1 < 0 then (-1, []) else (k.1 + 1, r.value :: k.2)

/-! ### Data model (nfs.c lines 316-344) -/

inductive nfs_xprt_type_e where
  | nfs_xprt_type_tcp
  | nfs_xprt_type_udp
  | nfs_xprt_type_rdma
  deriving DecidableEq, Repr

structure nfs_per_op_statistic_t where
  op_name : List Char
  op : List Nat
  deriving DecidableEq, Repr

structure mountstats_t where
  mountpoint : Option (List Char)
  age : Int
  events : List Nat
  bytes : List Nat
  xprt_type : nfs_xprt_type_e
  xprt : List Nat
  op : List nfs_per_op_statistic_t
  deriving DecidableEq, Repr

/-- clear_mountstats (nfs.c lines 636-641): the record after memset 0.
The zero value of nfs_xprt_type_e is nfs_xprt_type_tcp, the first
enumerator (nfs.c line 317). -/
def clear_mountstats : mountstats_t :=
  { mountpoint := none
    age := 0
    events := List.replicate NB_NFS_EVENT_COUNTERS 0
    bytes := List.replicate NB_NFS_BYTE_COUNTERS 0
    xprt_type := .nfs_xprt_type_tcp
    xprt := List.replicate NB_NFS_XPRT_ANY 0
    op := [] }

/-- Overwrite the front of a fixed-size array with freshly parsed values,
leaving the tail unchanged (the C loops write a[0..k-1] only). -/
def overwriteFront (vs a : List Nat) : List Nat := vs ++ a.drop vs.length

inductive proc_self_mountstats_state_e where
  | psm_state_start
  | psm_state_check_device
  | psm_state_device_nfs
  | psm_state_device_nfs_per_opt_stats
  deriving DecidableEq, Repr

/-! ### Mount filter configuration (nfs.c lines 47-52, 372-412) -/

structure nfs_mountpoints_config_t where
  min_age : Int
  perop_statistics : Option (List (List Char))
  perop_statistics_string : Option (List Char)
  show_ : Bool
  deriving DecidableEq, Repr

def isPeropDelim (c : Char) : Bool := c == ' ' || c == '\t' || c == ',' || c == ';'

/-- Token splitting loop of nfs_mountpoints_config_parse_perop_statistics
(nfs.c lines 398-409), fuelled by the string length so that it stays a
structural recursion. -/
def splitPeropTokensAux : Nat → List Char → List (List Char)
  | 0, _ => []
  | _, [] => []
  | fuel + 1, c :: cs =>
    if isPeropDelim c then splitPeropTokensAux fuel cs
    else
      (c :: cs).takeWhile (fun ch => !(isPeropDelim ch)) ::
        splitPeropTokensAux fuel ((c :: cs).dropWhile (fun ch => !(isPeropDelim ch)))

def splitPeropTokens (s : List Char) : List (List Char) :=
  splitPeropTokensAux s.length s

/-- nfs_mountpoints_config_parse_perop_statistics (nfs.c lines 372-412):
returns the (perop_statistics, perop_statistics_string) pair.  Per the
comment at nfs.c lines 41-44: string none means no per-op statistics,
string some with tree none means all, string some with tree some means
the subset listed in the tree. -/
def nfs_mountpoints_config_parse_perop_statistics (s : List Char) :
    Option (List (List Char)) × Option (List Char) :=
  if s = "all".toList then (none, some s)
  else if s = [] then (none, none)
  else (some (splitPeropTokens s), some s)

inductive PerOpSelector where
  | selNone
  | selAll
  | selSubset (names : List (List Char))
  deriving DecidableEq, Repr

/-- Reading of the configuration field pair as the abstract per-op selector,
following the encoding documented at nfs.c lines 41-44. -/
def selectorOf : Option (List (List Char)) × Option (List Char) → PerOpSelector
  | (_, none) => .selNone
  | (none, some _) => .selAll
  | (some t, some _) => .selSubset t

/-! ### Dispatcher (nfs.c lines 685-812) -/

structure Sample where
  plugin_instance : List Char
  type : List Char
  type_instance : List Char
  values : List Int
  deriving DecidableEq, Repr

/-- Sanitization of the plugin instance (nfs.c lines 698-706): every
character outside A-Z, a-z, 0-9 becomes an underscore. -/
def sanitizeChar (c : Char) : Char :=
  if ('A' ≤ c && c ≤ 'Z') || ('a' ≤ c && c ≤ 'z') || ('0' ≤ c && c ≤ '9') then c
  else '_'

def lookupConfig : List (List Char × nfs_mountpoints_config_t) → List Char →
    Option nfs_mountpoints_config_t
  | [], _ => none
  | (k, v) :: rest, key => if k = key then some v else lookupConfig rest key

/-- Policy resolution of mountstats_submit (nfs.c lines 716-720): exact
mountpoint match first, else the wildcard entry named all.  The source
asserts that the fallback lookup succeeds. -/
def resolveConfig (cfg : List (List Char × nfs_mountpoints_config_t))
    (mp : List Char) : Option nfs_mountpoints_config_t :=
  match lookupConfig cfg mp with
  | some item => some item
  | none => lookupConfig cfg "all".toList

/-- The transport sample of mountstats_submit (nfs.c lines 756-780): type
name and value count are selected by xprt_type. -/
def xprtSample (m : mountstats_t) (inst : List Char) : Sample :=
  match m.xprt_type with
  | .nfs_xprt_type_tcp =>
    ⟨inst, "nfsclient_xprttcp".toList, [], (m.xprt.take NB_NFS_XPRT_TCP).map Int.ofNat⟩
  | .nfs_xprt_type_udp =>
    ⟨inst, "nfsclient_xprtudp".toList, [], (m.xprt.take NB_NFS_XPRT_UDP).map Int.ofNat⟩
  | .nfs_xprt_type_rdma =>
    ⟨inst, "nfsclient_xprtrdma".toList, [], (m.xprt.take NB_NFS_XPRT_RDMA).map Int.ofNat⟩

/-- The per-operation samples of mountstats_submit (nfs.c lines 782-803).
The loop runs only when perop_statistics_string is non-NULL and non-empty;
inside it an operation is skipped when the perop_statistics tree is NULL
or does not contain the operation name (nfs.c lines 787-792). -/
def peropSamples (item : nfs_mountpoints_config_t) (m : mountstats_t)
    (inst : List Char) : List Sample :=
  match item.perop_statistics_string with
  | none => []
  | some ps =>
    if ps = [] then []
    else
      m.op.filterMap (fun o =>
        match item.perop_statistics with
        | none => none
        | some tree =>
          if o.op_name ∈ tree then
            some ⟨inst, "nfsclient_perop".toList, o.op_name, o.op.map Int.ofNat⟩
          else none)

def submitSamples (item : nfs_mountpoints_config_t) (m : mountstats_t)
    (inst : List Char) : List Sample :=
  ⟨inst, "uptime".toList, [], [m.age]⟩ ::
  ⟨inst, "nfsclient_events".toList, [], m.events.map Int.ofNat⟩ ::
  ⟨inst, "nfsclient_bytes".toList, [], m.bytes.map Int.ofNat⟩ ::
  xprtSample m inst ::
  peropSamples item m inst

/-- mountstats_submit (nfs.c lines 710-805): resolve the policy, apply the
show and min_age filters, then emit the sample list. -/
def mountstats_submit (cfg : List (List Char × nfs_mountpoints_config_t))
    (m : mountstats_t) : List Sample :=
  match resolveConfig cfg (m.mountpoint.getD []) with
  | none => []
  | some item =>
    if item.show_ = false then []
    else if m.age < item.min_age ∧ item.min_age ≠ 0 then []
    else submitSamples item m ((m.mountpoint.getD []).map sanitizeChar)

/-! ### Parser state machine (nfs.c lines 832-1031) -/

inductive StepResult where
  | ok (st : proc_self_mountstats_state_e) (m : mountstats_t)
       (newly : List mountstats_t)
  | err (newly : List mountstats_t)
  deriving DecidableEq, Repr

def newlyOf : StepResult → List mountstats_t
  | .ok _ _ nw => nw
  | .err nw => nw

def withNewly (nw : List mountstats_t) : StepResult → StepResult
  | .ok st m _ => .ok st m nw
  | .err _ => .err nw

/-- First index at which the pattern occurs as a contiguous substring
(the C strstr). -/
def findSubstr (pat : List Char) : List Char → Option Nat
  | [] => if pat.isPrefixOf [] then some 0 else none
  | c :: cs =>
    if pat.isPrefixOf (c :: cs) then some 0
    else (findSubstr pat cs).map (· + 1)

/-- The fstype check of the start state (nfs.c lines 894-905): the token
must begin with nfs and its fourth character, if any, must be a newline,
a version digit 2, 3 or 4, a space, or a tab; a missing fourth character
(string terminator) is also accepted. -/
def hsIsNfs (s : List Char) : Bool :=
  "nfs".toList.isPrefixOf s &&
    (match s.get? 3 with
     | none => true
     | some c => c == '\n' || c == '2' || c == '3' || c == '4' || c == ' ' || c == '\t')

/-- The mountpoint capture (nfs.c lines 908-921): the text after the
marker mounted on, with spaces and tabs skipped, truncated at the position
of the fstype marker when that position lies at or beyond the start (the C
code writes a NUL byte there); when the path start lies beyond the fstype
marker the copy runs to the end of the line. -/
def hsMountpoint (nfsdir : List Char) (fi mi : Nat) : List Char :=
  let p := mi + 12 + ((nfsdir.drop (mi + 12)).takeWhile isSpaceTab).length
  if p ≤ fi then (nfsdir.drop p).take (fi - p) else nfsdir.drop p

/-- Start state, after the device token has matched: nfsdir is the rest of
the line with leading spaces skipped (nfs.c lines 881-928). -/
def hsDevice (m : mountstats_t) (nfsdir : List Char) : StepResult :=
  match findSubstr " with fstype ".toList nfsdir with
  | none => .err []
  | some fi =>
    if hsIsNfs ((nfsdir.drop (fi + 13)).dropWhile isSpaceTab) then
      match findSubstr " mounted on ".toList nfsdir with
      | none => .err []
      | some mi =>
        .ok .psm_state_device_nfs
          { m with mountpoint := some (hsMountpoint nfsdir fi mi) } []
    else .ok .psm_state_start m []

/-- psm_state_start (nfs.c lines 870-928).  The first token of the line,
delimited by a space or the end of the line, must be exactly device, else
the whole pass is a parse error.  When the token is device (6 characters)
the C code continues at wbuf + 7. -/
def handleStart (m : mountstats_t) (buf : List Char) : StepResult :=
  if buf.takeWhile (fun c => !(c == ' ')) = "device".toList then
    hsDevice m ((buf.drop 7).dropWhile isSpaceTab)
  else .err []

/-- The age line (nfs.c lines 932-944): v is the text after skipping the
four marker characters plus one more (the C adds sizeof, not sizeof minus
one) and then spaces and tabs.  Error only when v is empty (at the string
terminator) or strtol reports ERANGE; any other text is taken by strtol,
a non-numeric value yielding 0 with no error. -/
def hdnAge (m : mountstats_t) (v : List Char) : StepResult :=
  if v = [] then .err []
  else if (strtol v).2 then .err []
  else .ok .psm_state_device_nfs { m with age := (strtol v).1 } []

def hdnEvents (m : mountstats_t) (s : List Char) : StepResult :=
  if (string_to_array_of_Lu s NB_NFS_EVENT_COUNTERS).1 = (NB_NFS_EVENT_COUNTERS : Int) then
    .ok .psm_state_device_nfs
      { m with events := overwriteFront (string_to_array_of_Lu s NB_NFS_EVENT_COUNTERS).2 m.events } []
  else .err []

def hdnBytes (m : mountstats_t) (s : List Char) : StepResult :=
  if (string_to_array_of_Lu s NB_NFS_BYTE_COUNTERS).1 = (NB_NFS_BYTE_COUNTERS : Int) then
    .ok .psm_state_device_nfs
      { m with bytes := overwriteFront (string_to_array_of_Lu s NB_NFS_BYTE_COUNTERS).2 m.bytes } []
  else .err []

def hdnXprtKind (m : mountstats_t) (k : nfs_xprt_type_e) (r : Int × List Nat)
    (nb : Nat) : StepResult :=
  if r.1 = (nb : Int) then
    .ok .psm_state_device_nfs { m with xprt_type := k, xprt := overwriteFront r.2 m.xprt } []
  else .err []

/-- The xprt line body (nfs.c lines 957-977): the kind token, including its
trailing space, selects the catalog-sized count; an unrecognized kind
leaves the count sentinel at -1 and is an error. -/
def hdnXprt (m : mountstats_t) (b : List Char) : StepResult :=
  if "tcp ".toList.isPrefixOf b then
    hdnXprtKind m .nfs_xprt_type_tcp (string_to_array_of_Lu (b.drop 4) NB_NFS_XPRT_TCP) NB_NFS_XPRT_TCP
  else if "udp ".toList.isPrefixOf b then
    hdnXprtKind m .nfs_xprt_type_udp (string_to_array_of_Lu (b.drop 4) NB_NFS_XPRT_UDP) NB_NFS_XPRT_UDP
  else if "rdma ".toList.isPrefixOf b then
    hdnXprtKind m .nfs_xprt_type_rdma (string_to_array_of_Lu (b.drop 5) NB_NFS_XPRT_RDMA) NB_NFS_XPRT_RDMA
  else .err []

/-- psm_state_device_nfs (nfs.c lines 929-981), on the line with leading
spaces and tabs skipped.  The drop counts follow the C sizeof arithmetic:
the marker length plus one extra character. -/
def hdnAt (m : mountstats_t) (s : List Char) : StepResult :=
  if "age:".toList.isPrefixOf s then hdnAge m ((s.drop 5).dropWhile isSpaceTab)
  else if "events:".toList.isPrefixOf s then hdnEvents m (s.drop 8)
  else if "bytes:".toList.isPrefixOf s then hdnBytes m (s.drop 7)
  else if "xprt:".toList.isPrefixOf s then hdnXprt m ((s.drop 6).dropWhile isSpaceTab)
  else if "per-op statistics".toList.isPrefixOf s then
    .ok .psm_state_device_nfs_per_opt_stats m []
  else .ok .psm_state_device_nfs m []

def handleDeviceNfs (m : mountstats_t) (buf : List Char) : StepResult :=
  hdnAt m (buf.dropWhile isSpaceTab)

def hpoEntry (m : mountstats_t) (s : List Char) (i : Nat) : StepResult :=
  if (string_to_array_of_Lu (s.drop (i + 1)) 8).1 = (8 : Int) then
    .ok .psm_state_device_nfs_per_opt_stats
      { m with op := m.op ++
          [⟨s.take (min i 1023), (string_to_array_of_Lu (s.drop (i + 1)) 8).2⟩] } []
  else .err []

/-- psm_state_device_nfs_per_opt_stats (nfs.c lines 982-1009): blank or
newline lines are ignored; otherwise the name runs to the first colon
(truncated by sstrncpy to 1023 characters) and exactly 8 integers must
follow; with no colon on the line the metrics parse starts past the
terminator and fails the count check. -/
def hpoAt (m : mountstats_t) : List Char → StepResult
  | [] => .ok .psm_state_device_nfs_per_opt_stats m []
  | c :: cs =>
    if c == '\n' then .ok .psm_state_device_nfs_per_opt_stats m []
    else hpoEntry m (c :: cs) ((c :: cs).takeWhile (fun ch => !(ch == ':'))).length

def handlePerOp (m : mountstats_t) (buf : List Char) : StepResult :=
  hpoAt m (buf.dropWhile isSpaceTab)

def runState (st : proc_self_mountstats_state_e) (m : mountstats_t)
    (buf : List Char) : StepResult :=
  match st with
  | .psm_state_start => handleStart m buf
  | .psm_state_device_nfs => handleDeviceNfs m buf
  | .psm_state_device_nfs_per_opt_stats => handlePerOp m buf
  | .psm_state_check_device => .err []

/-- One iteration of the fgets loop (nfs.c lines 847-1014): a line starting
with the seven characters of device followed by a space dispatches a
pending record (mountpoint non-NULL), clears it, and resets the state to
psm_state_start before the switch runs on the same line.  The
psm_state_check_device state is never assigned by the source; the switch
default would hit an assertion there, modelled as an error. -/
def stepLine (st : proc_self_mountstats_state_e) (m : mountstats_t)
    (buf : List Char) : StepResult :=
  if "device ".toList.isPrefixOf buf && m.mountpoint.isSome then
    withNewly [m] (runState .psm_state_start clear_mountstats buf)
  else if "device ".toList.isPrefixOf buf then
    withNewly [] (runState .psm_state_start m buf)
  else
    withNewly [] (runState st m buf)

inductive RunResult where
  | ok (st : proc_self_mountstats_state_e) (m : mountstats_t)
       (dispatched : List mountstats_t)
  | err (dispatched : List mountstats_t)
  deriving DecidableEq, Repr

def dispatchedOf : RunResult → List mountstats_t
  | .ok _ _ d => d
  | .err d => d

/-- Accumulate records dispatched by one line in front of the records the
rest of the pass dispatches, whether or not the pass later fails. -/
def prependDispatched (nw : List mountstats_t) : RunResult → RunResult
  | .ok st m d => .ok st m (nw ++ d)
  | .err d => .err (nw ++ d)

def runLines (st : proc_self_mountstats_state_e) (m : mountstats_t) :
    List (List Char) → RunResult
  | [] => .ok st m []
  | l :: ls =>
    match stepLine st m l with
    | .ok st' m' nw => prependDispatched nw (runLines st' m' ls)
    | .err nw => .err nw

/-- dispatch_mountstats (nfs.c lines 808-812): a record with a NULL
mountpoint is not dispatched. -/
def dispatch_mountstats (m : mountstats_t) : List mountstats_t :=
  match m.mountpoint with
  | none => []
  | some _ => [m]

structure PassResult where
  dispatched : List mountstats_t
  ok : Bool
  deriving DecidableEq, Repr

/-- parse_proc_self_mountstats (nfs.c lines 832-1031) over a list of input
lines: start from the zeroed record in psm_state_start; at end of file
dispatch and clear the pending record; a parse error aborts the pass,
keeping only the records dispatched before the error. -/
def parse_proc_self_mountstats (lines : List (List Char)) : PassResult :=
  match runLines .psm_state_start clear_mountstats lines with
  | .ok _ m d => ⟨d ++ dispatch_mountstats m, true⟩
  | .err d => ⟨d, false⟩

/-- The body of an xprt line: the C advances by sizeof six characters past
the start of the xprt: marker and then skips spaces and tabs. -/
def xprtBody (l : List Char) : List Char :=
  ((l.dropWhile isSpaceTab).drop 6).dropWhile isSpaceTab

/-- The value text of an age line: the C advances by sizeof five characters
past the start of the age: marker and then skips spaces and tabs. -/
def ageBody (l : List Char) : List Char :=
  ((l.dropWhile isSpaceTab).drop 5).dropWhile isSpaceTab

/-! ### Concrete fixtures used by the theorems below -/

/-- A configuration entry built through the source parsing function for the
perop_statistics string, with explicit min_age and show values. -/
def mkConfigItem (minAge : Int) (peropStr : List Char) (showFlag : Bool) :
    nfs_mountpoints_config_t :=
  { min_age := minAge
    perop_statistics := (nfs_mountpoints_config_parse_perop_statistics peropStr).1
    perop_statistics_string := (nfs_mountpoints_config_parse_perop_statistics peropStr).2
    show_ := showFlag }

/-- A dispatched record with the given mountpoint and age, all counters at
their cleared defaults. -/
def recordAt (mp : List Char) (a : Int) : mountstats_t :=
  { clear_mountstats with mountpoint := some mp, age := a }

/-- A dispatched record carrying three per-operation entries named read,
write and lookup. -/
def recordWithOps : mountstats_t :=
  { clear_mountstats with
    mountpoint := some "/m".toList
    op := [⟨"read".toList, [1, 2, 3, 4, 5, 6, 7, 8]⟩,
           ⟨"write".toList, [11, 12, 13, 14, 15, 16, 17, 18]⟩,
           ⟨"lookup".toList, [21, 22, 23, 24, 25, 26, 27, 28]⟩] }

/-- A wildcard-only configuration with minimum age 3600 and no per-op
statistics (the defaults of the implicit wildcard entry, nfs.c 626-629). -/
def cfgMinAge3600 : List (List Char × nfs_mountpoints_config_t) :=
  [("all".toList,
    { min_age := 3600, perop_statistics := none, perop_statistics_string := none,
      show_ := true })]

/-- An in-flight record with a pending mountpoint, as it stands right after
a device line has been accepted. -/
def pendingRecord : mountstats_t :=
  { clear_mountstats with mountpoint := some "/m".toList }

/-! ## Helper lemmas -/

theorem isPrefixOf_exists {l₁ l₂ : List Char} (h : l₁.isPrefixOf l₂ = true) :
    ∃ t, l₂ = l₁ ++ t := by
  induction l₁ generalizing l₂ with
  | nil => exact ⟨l₂, rfl⟩
  | cons a as ih =>
    cases l₂ with
    | nil => simp at h
    | cons b bs =>
      rw [List.isPrefixOf_cons₂, Bool.and_eq_true, beq_iff_eq] at h
      obtain ⟨t, ht⟩ := ih h.2
      exact ⟨t, by rw [h.1, ht]; rfl⟩

theorem devicePrefix_token {l : List Char}
    (h : "device ".toList.isPrefixOf l = true) :
    l.takeWhile (fun c => !(c == ' ')) = "device".toList := by
  obtain ⟨t, rfl⟩ := isPrefixOf_exists h
  rfl

theorem newlyOf_withNewly (nw : List mountstats_t) (r : StepResult) :
    newlyOf (withNewly nw r) = nw := by
  cases r <;> rfl

theorem stepLine_newly (st : proc_self_mountstats_state_e) (m : mountstats_t)
    (l : List Char) :
    newlyOf (stepLine st m l) =
      if "device ".toList.isPrefixOf l && m.mountpoint.isSome then [m] else [] := by
  unfold stepLine
  by_cases h1 : "device ".toList.isPrefixOf l && m.mountpoint.isSome
  · rw [if_pos h1, if_pos h1, newlyOf_withNewly]
  · rw [if_neg h1, if_neg h1]
    by_cases h2 : "device ".toList.isPrefixOf l = true
    · rw [if_pos h2, newlyOf_withNewly]
    · rw [if_neg h2, newlyOf_withNewly]

theorem prependDispatched_comp (nw d : List mountstats_t) (r : RunResult) :
    prependDispatched nw (prependDispatched d r) = prependDispatched (nw ++ d) r := by
  cases r <;> simp [prependDispatched]

theorem runLines_append (ls1 ls2 : List (List Char))
    (st : proc_self_mountstats_state_e) (m : mountstats_t) :
    runLines st m (ls1 ++ ls2) =
      match runLines st m ls1 with
      | .ok st1 m1 d => prependDispatched d (runLines st1 m1 ls2)
      | .err d => .err d := by
  induction ls1 generalizing st m with
  | nil =>
    simp only [List.nil_append, runLines]
    cases runLines st m ls2 <;> simp [prependDispatched]
  | cons l ls ih =>
    simp only [List.cons_append, runLines]
    cases hs : stepLine st m l with
    | ok st1 m1 nw =>
      dsimp only
      rw [show ls.append ls2 = ls ++ ls2 from rfl, ih]
      cases runLines st1 m1 ls with
      | ok st2 m2 d => rw [prependDispatched_comp]; rfl
      | err d => rfl
    | err nw => rfl

theorem dispatchedOf_prependDispatched (nw : List mountstats_t) (r : RunResult) :
    dispatchedOf (prependDispatched nw r) = nw ++ dispatchedOf r := by
  cases r <;> rfl

theorem mem_stepLine_newly {st : proc_self_mountstats_state_e} {m : mountstats_t}
    {l : List Char} {r : mountstats_t} (h : r ∈ newlyOf (stepLine st m l)) :
    r = m ∧ m.mountpoint.isSome = true := by
  rw [stepLine_newly] at h
  by_cases hcond : ("device ".toList.isPrefixOf l && m.mountpoint.isSome) = true
  · rw [if_pos hcond] at h
    simp only [List.mem_singleton] at h
    exact ⟨h, ((Bool.and_eq_true _ _).mp hcond).2⟩
  · rw [if_neg hcond] at h
    simp at h

theorem runLines_dispatched_isSome (lines : List (List Char)) :
    ∀ (st : proc_self_mountstats_state_e) (m : mountstats_t) (r : mountstats_t),
      r ∈ dispatchedOf (runLines st m lines) → r.mountpoint.isSome = true := by
  induction lines with
  | nil => intro st m r h; simp [runLines, dispatchedOf] at h
  | cons l ls ih =>
    intro st m r h
    rw [runLines] at h
    cases hs : stepLine st m l with
    | ok st1 m1 nw =>
      rw [hs] at h
      dsimp only at h
      rw [dispatchedOf_prependDispatched, List.mem_append] at h
      rcases h with h | h
      · obtain ⟨hrm, hsome⟩ := @mem_stepLine_newly st m l r
          (by rw [hs]; exact h)
        rw [hrm]; exact hsome
      · exact ih st1 m1 r h
    | err nw =>
      rw [hs] at h
      dsimp only [dispatchedOf] at h
      obtain ⟨hrm, hsome⟩ := @mem_stepLine_newly st m l r
        (by rw [hs]; exact h)
      rw [hrm]; exact hsome

/-! ## Claim C1 -/

/-- C1: The claim states that with perOpSelector = All (configuration string
"all") one per-operation sample is emitted for every OpStat, and with
Subset(S) exactly for the OpStats named in S.  The subset half holds, but
the code contradicts its own documentation (nfs.c lines 41-44) for the
"all" encoding: the skip condition at nfs.c line 788 is satisfied whenever
the perop_statistics tree is NULL, which is exactly the documented "all"
encoding, so no per-operation sample is ever emitted then.  This theorem
evaluates the code at the failing input: a record with operations read,
write, lookup under the "all" configuration yields no per-op samples at
all, while the subset configuration "read, write" yields exactly the read
and write samples. -/
theorem c1_perop_all_emits_nothing :
    ((mountstats_submit [("all".toList, mkConfigItem 0 "all".toList true)]
        recordWithOps).filter (fun s => s.type == "nfsclient_perop".toList)) = [] ∧
    selectorOf (nfs_mountpoints_config_parse_perop_statistics "all".toList) = .selAll ∧
    ((mountstats_submit [("all".toList, mkConfigItem 0 "read, write".toList true)]
        recordWithOps).filter (fun s => s.type == "nfsclient_perop".toList)).map
      (fun s => s.type_instance) = ["read".toList, "write".toList] := by
  exact ⟨rfl, rfl, rfl⟩

/-! ## Claim C6 -/

/-- C6: the dispatcher resolves the policy by exact mountpoint match with
fallback to the wildcard entry named all, and emits nothing when the
resolved policy has show false, or min_age nonzero with the record younger
than min_age; concretely, with min_age 3600 a record of age 1800 is fully
suppressed and one of age 7200 is emitted (its four sample sets). -/
theorem c6_filter_policy :
    (∀ cfg mp item, lookupConfig cfg mp = some item → resolveConfig cfg mp = some item) ∧
    (∀ cfg mp, lookupConfig cfg mp = none →
      resolveConfig cfg mp = lookupConfig cfg "all".toList) ∧
    (∀ cfg m item, resolveConfig cfg (m.mountpoint.getD []) = some item →
      item.show_ = false → mountstats_submit cfg m = []) ∧
    (∀ cfg m item, resolveConfig cfg (m.mountpoint.getD []) = some item →
      item.min_age ≠ 0 → m.age < item.min_age → mountstats_submit cfg m = []) ∧
    mountstats_submit cfgMinAge3600 (recordAt "/d".toList 1800) = [] ∧
    (mountstats_submit cfgMinAge3600 (recordAt "/d".toList 7200)).length = 4 := by
  refine ⟨?_, ?_, ?_, ?_, rfl, rfl⟩
  · intro cfg mp item h
    unfold resolveConfig
    rw [h]
  · intro cfg mp h
    unfold resolveConfig
    rw [h]
  · intro cfg m item h hs
    unfold mountstats_submit
    rw [h]
    dsimp only
    rw [hs]
    simp
  · intro cfg m item h hmin hage
    unfold mountstats_submit
    rw [h]
    dsimp only
    by_cases hs : item.show_ = false
    · rw [hs]; simp
    · rw [if_neg hs, if_pos ⟨hage, hmin⟩]

/-- Witness for C6, applying the theorem at concrete inputs. -/
theorem c6_filter_policy_witness :
    resolveConfig cfgMinAge3600 "/x".toList = some
      { min_age := 3600, perop_statistics := none, perop_statistics_string := none,
        show_ := true } ∧
    mountstats_submit [("all".toList, mkConfigItem 0 [] false)]
      (recordAt "/d".toList 9999) = [] ∧
    mountstats_submit cfgMinAge3600 (recordAt "/d".toList 1800) = [] := by
  refine ⟨?_, ?_, ?_⟩
  · exact c6_filter_policy.2.1 cfgMinAge3600 "/x".toList rfl
  · exact c6_filter_policy.2.2.1 _ (recordAt "/d".toList 9999) (mkConfigItem 0 [] false)
      rfl rfl
  · exact c6_filter_policy.2.2.2.1 cfgMinAge3600 (recordAt "/d".toList 1800)
      { min_age := 3600, perop_statistics := none, perop_statistics_string := none,
        show_ := true } rfl (by decide) (by decide)

/-! ## Claim C8 -/

/-- C8 counterexample: the claim states the tokenizer returns a negative
sentinel on any token that is not a valid unsigned integer.  The token -2
does not denote an unsigned integer, yet strtoull accepts a leading minus
sign and negates the value modulo 2^64, so the tokenizer parses the line
successfully, returning count 3 rather than the sentinel. -/
theorem c8_signed_token_counterexample :
    string_to_array_of_Lu "1 -2 3".toList 5 = (3, [1, 2 ^ 64 - 2, 3]) := by
  decide

theorem stoaLu_count_bounds (n : Nat) : ∀ s : List Char,
    (string_to_array_of_Lu s n).1 = -1 ∧ (string_to_array_of_Lu s n).2 = [] ∨
      0 ≤ (string_to_array_of_Lu s n).1 ∧ (string_to_array_of_Lu s n).1 ≤ (n : Int) ∧
      ((string_to_array_of_Lu s n).2.length : Int) = (string_to_array_of_Lu s n).1 := by
  induction n with
  | zero => intro s; right; simp [string_to_array_of_Lu]
  | succ n ih =>
    intro s
    simp only [string_to_array_of_Lu]
    cases hd : s.dropWhile isSpaceTab with
    | nil =>
      dsimp only
      right
      refine ⟨by omega, by omega, by simp⟩
    | cons c cs =>
      dsimp only
      by_cases hc : (c == '\n') = true
      · rw [if_pos hc]
        right
        refine ⟨by omega, by omega, by simp⟩
      · rw [if_neg hc]
        by_cases he : ((strtoull (c :: cs)).range_err || !(strtoull (c :: cs)).converted) = true
        · rw [if_pos he]
          left; exact ⟨rfl, rfl⟩
        · rw [if_neg he]
          rcases ih (strtoull (c :: cs)).rest with ⟨h1, _⟩ | ⟨h1, h2, h3⟩
          · rw [if_pos (by rw [h1]; decide)]
            left; exact ⟨rfl, rfl⟩
          · rw [if_neg (by omega)]
            right
            dsimp only
            refine ⟨by omega, by push_cast; omega, ?_⟩
            simp only [List.length_cons]
            push_cast
            omega

/-- C8 amended: the tokenizer never parses more than maxCount values and on
success returns the exact number consumed (at most maxCount, with exactly
that many values written); it stops with a partial count at end of string
or at a newline without reading past it; it returns the sentinel -1
exactly when strtoull converts nothing from a token or reports overflow —
a token with a leading minus sign, such as -2, is accepted with its value
negated modulo 2^64 rather than rejected.  Concretely, "1 2 3" with
maxCount 5 yields 3 values, a newline stops the scan, and "1 x 3" fails
at the second token. -/
theorem c8_tokenizer_amended :
    (∀ (s : List Char) (n : Nat),
      (string_to_array_of_Lu s n).1 = -1 ∧ (string_to_array_of_Lu s n).2 = [] ∨
        0 ≤ (string_to_array_of_Lu s n).1 ∧ (string_to_array_of_Lu s n).1 ≤ (n : Int) ∧
        ((string_to_array_of_Lu s n).2.length : Int) = (string_to_array_of_Lu s n).1) ∧
    string_to_array_of_Lu "1 2 3".toList 5 = (3, [1, 2, 3]) ∧
    string_to_array_of_Lu "1 2 3\n4 5".toList 5 = (3, [1, 2, 3]) ∧
    string_to_array_of_Lu "1 x 3".toList 5 = (-1, []) ∧
    string_to_array_of_Lu "1 -2 3".toList 5 = (3, [1, 2 ^ 64 - 2, 3]) := by
  refine ⟨fun s n => stoaLu_count_bounds n s, by decide, by decide, by decide, by decide⟩

/-! ## Claim C9 -/

/-- C9: round-trip of the per-op selector configuration: the empty string
parses to selector None, the string all to All, and any other string to
Subset of exactly the names obtained by splitting on space, tab, comma and
semicolon; in particular "read, write" yields exactly the names read and
write. -/
theorem c9_selector_roundtrip :
    selectorOf (nfs_mountpoints_config_parse_perop_statistics []) = .selNone ∧
    selectorOf (nfs_mountpoints_config_parse_perop_statistics "all".toList) = .selAll ∧
    (∀ s : List Char, s ≠ "all".toList → s ≠ [] →
      selectorOf (nfs_mountpoints_config_parse_perop_statistics s) =
        .selSubset (splitPeropTokens s)) ∧
    splitPeropTokens "read, write".toList = ["read".toList, "write".toList] := by
  refine ⟨rfl, rfl, ?_, by decide⟩
  intro s h1 h2
  unfold nfs_mountpoints_config_parse_perop_statistics
  rw [if_neg h1, if_neg h2]
  rfl

/-- Witness for C9, applying the theorem at the configuration string
"read, write". -/
theorem c9_selector_roundtrip_witness :
    selectorOf (nfs_mountpoints_config_parse_perop_statistics "read, write".toList) =
      .selSubset ["read".toList, "write".toList] := by
  rw [c9_selector_roundtrip.2.2.1 "read, write".toList (by decide) (by decide)]
  rw [c9_selector_roundtrip.2.2.2]

/-! ## Claim C3 -/

/-- C3 counterexample: the claim states that in the Start state every line
whose first token is not device is ignored with no parse error, so that a
non-NFS device block with body lines is skipped wholesale without error.
In the code a non-device line in the start state is a parse error
(nfs.c lines 876-879): an ext4 device line followed by an age: body line
aborts the pass with no dispatched records, where the claim predicts a
clean, silently skipped block. -/
theorem c3_nonnfs_body_line_counterexample :
    parse_proc_self_mountstats
      ["device a mounted on /m with fstype ext4\n".toList, "age: 5\n".toList] =
      ⟨[], false⟩ := by
  decide

/-- C3 amended: in the Start state a line whose first token is not device
causes a parse error that aborts the pass; a device line whose fstype does
not begin with nfs is skipped with no record created, no error, and no
state change; hence a non-NFS device block is skipped wholesale only when
it consists of the device line alone, and parsing of surrounding NFS
blocks proceeds normally (two NFS blocks with a bodyless ext4 block
between them dispatch exactly the two NFS records in order). -/
theorem c3_start_state_amended :
    (∀ (m : mountstats_t) (l : List Char),
      l.takeWhile (fun c => !(c == ' ')) ≠ "device".toList →
      stepLine .psm_state_start m l = .err []) ∧
    (∀ (m : mountstats_t) (l : List Char) (fi : Nat), m.mountpoint = none →
      l.takeWhile (fun c => !(c == ' ')) = "device".toList →
      findSubstr " with fstype ".toList ((l.drop 7).dropWhile isSpaceTab) = some fi →
      "nfs".toList.isPrefixOf
        ((((l.drop 7).dropWhile isSpaceTab).drop (fi + 13)).dropWhile isSpaceTab) = false →
      stepLine .psm_state_start m l = .ok .psm_state_start m []) ∧
    parse_proc_self_mountstats
      ["device s mounted on /a with fstype nfs4\n".toList,
       "device a mounted on /m with fstype ext4\n".toList,
       "device t mounted on /b with fstype nfs4\n".toList] =
      ⟨[{ clear_mountstats with mountpoint := some "/a".toList },
        { clear_mountstats with mountpoint := some "/b".toList }], true⟩ := by
  refine ⟨?_, ?_, by decide⟩
  · intro m l h
    have hpre : "device ".toList.isPrefixOf l = false := by
      by_contra hc
      rw [Bool.not_eq_false] at hc
      exact h (devicePrefix_token hc)
    have hc1 : ("device ".toList.isPrefixOf l && m.mountpoint.isSome) = false := by
      rw [hpre]; rfl
    unfold stepLine
    rw [hc1, hpre, if_neg (by decide), if_neg (by decide)]
    unfold runState handleStart
    rw [if_neg h]
    rfl
  · intro m l fi hm htok hfind hnfs
    have hsome : m.mountpoint.isSome = false := by rw [hm]; rfl
    have hc1 : ("device ".toList.isPrefixOf l && m.mountpoint.isSome) = false := by
      rw [hsome, Bool.and_false]
    have hh : hsIsNfs ((((l.drop 7).dropWhile isSpaceTab).drop (fi + 13)).dropWhile
        isSpaceTab) = false := by
      unfold hsIsNfs
      rw [hnfs]
      rfl
    unfold stepLine
    rw [hc1, if_neg (by decide)]
    by_cases hpre : "device ".toList.isPrefixOf l = true
    · rw [if_pos hpre]
      unfold runState handleStart
      rw [if_pos htok]
      unfold hsDevice
      rw [hfind]
      dsimp only
      rw [hh, if_neg (by decide)]
      rfl
    · rw [if_neg hpre]
      unfold runState handleStart
      rw [if_pos htok]
      unfold hsDevice
      rw [hfind]
      dsimp only
      rw [hh, if_neg (by decide)]
      rfl

/-- Witness for C3, applying the amended theorem at a non-device line and
at a device line with fstype ext4. -/
theorem c3_start_state_amended_witness :
    stepLine .psm_state_start clear_mountstats "hello world\n".toList = .err [] ∧
    stepLine .psm_state_start clear_mountstats
      "device a mounted on /m with fstype ext4\n".toList =
      .ok .psm_state_start clear_mountstats [] :=
  ⟨c3_start_state_amended.1 clear_mountstats "hello world\n".toList (by decide),
   c3_start_state_amended.2.1 clear_mountstats
     "device a mounted on /m with fstype ext4\n".toList 15 rfl (by decide) (by decide)
     (by decide)⟩

/-! ## Claim C4 -/

/-- C4: a malformed line aborts parsing of the entire input for the pass
and discards the in-flight record: whatever lines follow the failing one,
the pass result is an error carrying exactly the records dispatched before
(and on) the failing line, so samples already emitted for earlier complete
device blocks are unaffected. -/
theorem c4_error_aborts_pass (ls1 : List (List Char)) (l : List Char)
    (ls2 : List (List Char)) (st : proc_self_mountstats_state_e)
    (m : mountstats_t) (d nw : List mountstats_t)
    (h1 : runLines .psm_state_start clear_mountstats ls1 = .ok st m d)
    (h2 : stepLine st m l = .err nw) :
    parse_proc_self_mountstats (ls1 ++ l :: ls2) = ⟨d ++ nw, false⟩ ∧
    ∀ cfg, (parse_proc_self_mountstats (ls1 ++ l :: ls2)).dispatched.map
        (mountstats_submit cfg) =
      d.map (mountstats_submit cfg) ++ nw.map (mountstats_submit cfg) := by
  have hmain : parse_proc_self_mountstats (ls1 ++ l :: ls2) = ⟨d ++ nw, false⟩ := by
    unfold parse_proc_self_mountstats
    rw [runLines_append, h1]
    dsimp only
    rw [runLines, h2]
    rfl
  refine ⟨hmain, ?_⟩
  intro cfg
  rw [hmain]
  simp

/-- Witness for C4: two complete device blocks followed by a malformed
events line; the pass fails but keeps the first block's record. -/
theorem c4_error_aborts_pass_witness :
    parse_proc_self_mountstats
      ["device s mounted on /a with fstype nfs4\n".toList,
       "device t mounted on /b with fstype nfs4\n".toList,
       "events: 1 2\n".toList,
       "bytes: 1 2 3 4 5 6 7 8\n".toList] =
      ⟨[{ clear_mountstats with mountpoint := some "/a".toList }], false⟩ :=
  (c4_error_aborts_pass
    ["device s mounted on /a with fstype nfs4\n".toList,
     "device t mounted on /b with fstype nfs4\n".toList]
    "events: 1 2\n".toList
    ["bytes: 1 2 3 4 5 6 7 8\n".toList]
    .psm_state_device_nfs
    { clear_mountstats with mountpoint := some "/b".toList }
    [{ clear_mountstats with mountpoint := some "/a".toList }] []
    (by decide) (by decide)).1

/-! ## Claim C5 -/

/-- C5 counterexample: the claim treats an empty mountpoint and a NULL
mountpoint as the same never-dispatched sentinel.  The code only checks
for NULL: a device line whose mounted-on path is empty (here because the
mounted on marker follows the fstype marker and ends the line) produces a
record whose mountpoint is the empty string, and that record is
dispatched at end of input. -/
theorem c5_empty_mountpoint_counterexample :
    (parse_proc_self_mountstats
      ["device x with fstype nfs mounted on ".toList]).dispatched.map
        (fun r => r.mountpoint) = [some []] ∧
    (parse_proc_self_mountstats
      ["device x with fstype nfs mounted on ".toList]).ok = true := by
  exact ⟨rfl, rfl⟩

/-- C5 amended: at a device line boundary the pending record is dispatched
(and the in-flight buffer cleared) exactly when its mountpoint is non-NULL;
no line dispatches anything otherwise; at end of input the record is
dispatched exactly when the mountpoint is non-NULL; and every record any
pass ever dispatches has a non-NULL mountpoint.  Non-NULL is the precise
sentinel: an empty-string mountpoint counts as set and is dispatched. -/
theorem c5_record_boundary_amended :
    (∀ (st : proc_self_mountstats_state_e) (m : mountstats_t) (l : List Char),
      "device ".toList.isPrefixOf l = true → m.mountpoint.isSome = true →
      newlyOf (stepLine st m l) = [m]) ∧
    (∀ (st : proc_self_mountstats_state_e) (m : mountstats_t) (l : List Char),
      m.mountpoint.isSome = false → newlyOf (stepLine st m l) = []) ∧
    (∀ (st : proc_self_mountstats_state_e) (m : mountstats_t) (l : List Char),
      "device ".toList.isPrefixOf l = false → newlyOf (stepLine st m l) = []) ∧
    (∀ m : mountstats_t, dispatch_mountstats m =
      if m.mountpoint.isSome then [m] else []) ∧
    (∀ (lines : List (List Char)) (r : mountstats_t),
      r ∈ (parse_proc_self_mountstats lines).dispatched →
      r.mountpoint.isSome = true) := by
  refine ⟨?_, ?_, ?_, ?_, ?_⟩
  · intro st m l h1 h2
    rw [stepLine_newly, if_pos (by rw [h1, h2]; rfl)]
  · intro st m l h2
    rw [stepLine_newly, if_neg (by rw [h2, Bool.and_false]; decide)]
  · intro st m l h1
    rw [stepLine_newly, if_neg (by rw [h1, Bool.false_and]; decide)]
  · intro m
    cases hm : m.mountpoint with
    | none => rw [dispatch_mountstats, hm]; rfl
    | some mp => rw [dispatch_mountstats, hm]; rfl
  · intro lines r h
    unfold parse_proc_self_mountstats at h
    cases hr : runLines .psm_state_start clear_mountstats lines with
    | ok st m d =>
      rw [hr] at h
      dsimp only at h
      rw [List.mem_append] at h
      rcases h with h | h
      · exact runLines_dispatched_isSome lines _ _ r (by rw [hr]; exact h)
      · unfold dispatch_mountstats at h
        cases hm : m.mountpoint with
        | none => rw [hm] at h; simp at h
        | some mp =>
          rw [hm] at h
          simp only [List.mem_singleton] at h
          rw [h, hm]
          rfl
    | err d =>
      rw [hr] at h
      dsimp only at h
      exact runLines_dispatched_isSome lines _ _ r (by rw [hr]; exact h)

/-- Witness for C5, applying the amended theorem at a pending record with a
device line boundary, at a cleared record, and at a concrete pass. -/
theorem c5_record_boundary_amended_witness :
    newlyOf (stepLine .psm_state_device_nfs pendingRecord
      "device t mounted on /b with fstype nfs4\n".toList) = [pendingRecord] ∧
    newlyOf (stepLine .psm_state_device_nfs clear_mountstats
      "device t mounted on /b with fstype nfs4\n".toList) = [] ∧
    dispatch_mountstats clear_mountstats =
      (if clear_mountstats.mountpoint.isSome then [clear_mountstats] else []) :=
  ⟨c5_record_boundary_amended.1 .psm_state_device_nfs pendingRecord
     "device t mounted on /b with fstype nfs4\n".toList (by decide) (by decide),
   c5_record_boundary_amended.2.1 .psm_state_device_nfs clear_mountstats
     "device t mounted on /b with fstype nfs4\n".toList (by decide),
   c5_record_boundary_amended.2.2.2.1 clear_mountstats⟩

/-! ## Claim C7 -/

/-- C7 counterexample: the claim states that an age: line whose trailing
value is not a valid integer causes a parse error.  The code passes a NULL
endptr to strtol and checks only errno (nfs.c lines 940-944), so the
non-numeric value x yields age 0 with no parse error, overwriting the
previous age. -/
theorem c7_invalid_age_counterexample :
    stepLine .psm_state_device_nfs { pendingRecord with age := 42 }
      "age: x\n".toList =
      .ok .psm_state_device_nfs { pendingRecord with age := 0 } [] := by
  decide

/-- C7 amended: in the DeviceNFS state, a line beginning age: (after
leading spaces and tabs) sets ageSeconds to the strtol value of the text
found after skipping the marker plus one further character and then spaces
and tabs; a parse error occurs only when that text is empty (the line ends
there) or strtol reports an out-of-range value; a non-numeric value is not
an error and yields age 0.  Concretely, age: 7200 parses to 7200, age: x
silently yields 0, and a bare age: line is a parse error. -/
theorem c7_age_line_amended :
    (∀ (m : mountstats_t) (l : List Char),
      "device ".toList.isPrefixOf l = false →
      "age:".toList.isPrefixOf (l.dropWhile isSpaceTab) = true →
      stepLine .psm_state_device_nfs m l =
        (if ageBody l = [] then .err []
         else if (strtol (ageBody l)).2 then .err []
         else .ok .psm_state_device_nfs { m with age := (strtol (ageBody l)).1 } [])) ∧
    (∀ m : mountstats_t, stepLine .psm_state_device_nfs m "age: 7200\n".toList =
      .ok .psm_state_device_nfs { m with age := 7200 } []) ∧
    (∀ m : mountstats_t, stepLine .psm_state_device_nfs m "age: x\n".toList =
      .ok .psm_state_device_nfs { m with age := 0 } []) ∧
    (∀ m : mountstats_t, stepLine .psm_state_device_nfs m "age:\n".toList =
      .err []) := by
  refine ⟨?_, fun m => rfl, fun m => rfl, fun m => rfl⟩
  intro m l h0 h1
  have hc1 : ("device ".toList.isPrefixOf l && m.mountpoint.isSome) = false := by
    rw [h0, Bool.false_and]
  unfold stepLine
  rw [hc1, h0, if_neg (by decide), if_neg (by decide)]
  unfold runState handleDeviceNfs hdnAt
  rw [if_pos h1]
  unfold hdnAge ageBody
  by_cases hv : ((l.dropWhile isSpaceTab).drop 5).dropWhile isSpaceTab = []
  · rw [if_pos hv]; rfl
  · rw [if_neg hv]
    by_cases he : (strtol (((l.dropWhile isSpaceTab).drop 5).dropWhile isSpaceTab)).2 = true
    · rw [if_pos he]; rfl
    · rw [if_neg he]; rfl

/-- Witness for C7, applying the amended theorem at the line age: 9. -/
theorem c7_age_line_amended_witness :
    stepLine .psm_state_device_nfs pendingRecord "age: 9\n".toList =
      (if ageBody "age: 9\n".toList = [] then StepResult.err []
       else if (strtol (ageBody "age: 9\n".toList)).2 then StepResult.err []
       else .ok .psm_state_device_nfs
         { pendingRecord with age := (strtol (ageBody "age: 9\n".toList)).1 } []) :=
  c7_age_line_amended.1 pendingRecord "age: 9\n".toList (by decide) (by decide)

/-! ## Claim C2 -/

/-- C2 counterexample: the claim states that an xprt: line parses
successfully if and only if it carries exactly K integers after the kind,
with K = 7 for tcp and K = 10 for udp.  In the code the catalog sizes are
the other way around (NB_NFS_XPRT_TCP = 10, NB_NFS_XPRT_UDP = 7, nfs.c
lines 249-271), and the count check only rejects a shortfall: a tcp line
with 7 integers is a parse error where the claim predicts success, and a
udp line with 10 integers succeeds, consuming only the first 7, where the
claim predicts a count-mismatch error. -/
theorem c2_xprt_counts_counterexample :
    stepLine .psm_state_device_nfs pendingRecord
      "xprt: tcp 1 2 3 4 5 6 7\n".toList = .err [] ∧
    stepLine .psm_state_device_nfs pendingRecord
      "xprt: udp 1 2 3 4 5 6 7 8 9 10\n".toList =
      .ok .psm_state_device_nfs
        { pendingRecord with
          xprt_type := .nfs_xprt_type_udp
          xprt := [1, 2, 3, 4, 5, 6, 7] ++ List.replicate 12 0 } [] := by
  exact ⟨by decide, by decide⟩

/-- C2 amended: in the DeviceNFS state an xprt: line parses successfully
if and only if the kind token (which must be followed by a space) is tcp,
udp or rdma and at least K unsigned integers parse after the kind, where K
is the catalog size of that kind — 10 for tcp, 7 for udp, 19 for rdma; on
success transportKind is set to the kind and the first K integers
overwrite the front of transport[], any further integers on the line being
ignored; an unrecognized kind is a parse error. -/
theorem c2_xprt_kind_counts :
    (∀ (m : mountstats_t) (l : List Char),
      "device ".toList.isPrefixOf l = false →
      "xprt:".toList.isPrefixOf (l.dropWhile isSpaceTab) = true →
      ("tcp ".toList.isPrefixOf (xprtBody l) = true →
        stepLine .psm_state_device_nfs m l =
          (if (string_to_array_of_Lu ((xprtBody l).drop 4) NB_NFS_XPRT_TCP).1 =
              (NB_NFS_XPRT_TCP : Int) then
            .ok .psm_state_device_nfs
              { m with
                xprt_type := .nfs_xprt_type_tcp
                xprt := overwriteFront
                  (string_to_array_of_Lu ((xprtBody l).drop 4) NB_NFS_XPRT_TCP).2
                  m.xprt } []
           else .err [])) ∧
      ("udp ".toList.isPrefixOf (xprtBody l) = true →
        stepLine .psm_state_device_nfs m l =
          (if (string_to_array_of_Lu ((xprtBody l).drop 4) NB_NFS_XPRT_UDP).1 =
              (NB_NFS_XPRT_UDP : Int) then
            .ok .psm_state_device_nfs
              { m with
                xprt_type := .nfs_xprt_type_udp
                xprt := overwriteFront
                  (string_to_array_of_Lu ((xprtBody l).drop 4) NB_NFS_XPRT_UDP).2
                  m.xprt } []
           else .err [])) ∧
      ("rdma ".toList.isPrefixOf (xprtBody l) = true →
        stepLine .psm_state_device_nfs m l =
          (if (string_to_array_of_Lu ((xprtBody l).drop 5) NB_NFS_XPRT_RDMA).1 =
              (NB_NFS_XPRT_RDMA : Int) then
            .ok .psm_state_device_nfs
              { m with
                xprt_type := .nfs_xprt_type_rdma
                xprt := overwriteFront
                  (string_to_array_of_Lu ((xprtBody l).drop 5) NB_NFS_XPRT_RDMA).2
                  m.xprt } []
           else .err [])) ∧
      ("tcp ".toList.isPrefixOf (xprtBody l) = false →
       "udp ".toList.isPrefixOf (xprtBody l) = false →
       "rdma ".toList.isPrefixOf (xprtBody l) = false →
        stepLine .psm_state_device_nfs m l = .err [])) ∧
    NB_NFS_XPRT_TCP = 10 ∧ NB_NFS_XPRT_UDP = 7 ∧ NB_NFS_XPRT_RDMA = 19 := by
  refine ⟨?_, rfl, rfl, rfl⟩
  intro m l h0 h1
  have hc1 : ("device ".toList.isPrefixOf l && m.mountpoint.isSome) = false := by
    rw [h0, Bool.false_and]
  have hstep : stepLine .psm_state_device_nfs m l =
      withNewly [] (hdnXprt m (xprtBody l)) := by
    unfold stepLine
    rw [hc1, h0, if_neg (by decide), if_neg (by decide)]
    unfold runState handleDeviceNfs hdnAt
    obtain ⟨t, ht⟩ := isPrefixOf_exists h1
    rw [ht]
    rw [show ("age:".toList.isPrefixOf ("xprt:".toList ++ t)) = false from rfl]
    rw [show ("events:".toList.isPrefixOf ("xprt:".toList ++ t)) = false from rfl]
    rw [show ("bytes:".toList.isPrefixOf ("xprt:".toList ++ t)) = false from rfl]
    rw [show ("xprt:".toList.isPrefixOf ("xprt:".toList ++ t)) = true from by
      induction t <;> rfl]
    rw [if_neg (by decide), if_neg (by decide), if_neg (by decide), if_pos rfl]
    unfold xprtBody
    rw [ht]
  refine ⟨?_, ?_, ?_, ?_⟩
  · intro h2
    rw [hstep]
    unfold hdnXprt
    rw [if_pos h2]
    unfold hdnXprtKind
    split <;> rfl
  · intro h2
    have h2t : "tcp ".toList.isPrefixOf (xprtBody l) = false := by
      obtain ⟨t, ht⟩ := isPrefixOf_exists h2
      rw [ht]; rfl
    rw [hstep]
    unfold hdnXprt
    rw [h2t, if_neg (by decide), if_pos h2]
    unfold hdnXprtKind
    split <;> rfl
  · intro h2
    have h2t : "tcp ".toList.isPrefixOf (xprtBody l) = false := by
      obtain ⟨t, ht⟩ := isPrefixOf_exists h2
      rw [ht]; rfl
    have h2u : "udp ".toList.isPrefixOf (xprtBody l) = false := by
      obtain ⟨t, ht⟩ := isPrefixOf_exists h2
      rw [ht]; rfl
    rw [hstep]
    unfold hdnXprt
    rw [h2t, h2u, if_neg (by decide), if_neg (by decide), if_pos h2]
    unfold hdnXprtKind
    split <;> rfl
  · intro h2 h3 h4
    rw [hstep]
    unfold hdnXprt
    rw [h2, h3, h4, if_neg (by decide), if_neg (by decide), if_neg (by decide)]
    rfl

/-- Witness for C2, applying the amended theorem at a tcp line carrying
the ten catalog integers. -/
theorem c2_xprt_kind_counts_witness :
    stepLine .psm_state_device_nfs pendingRecord
      "xprt: tcp 1 2 3 4 5 6 7 8 9 10\n".toList =
      .ok .psm_state_device_nfs
        { pendingRecord with
          xprt_type := .nfs_xprt_type_tcp
          xprt := [1, 2, 3, 4, 5, 6, 7, 8, 9, 10] ++ List.replicate 9 0 } [] := by
  have h := (c2_xprt_kind_counts.1 pendingRecord
    "xprt: tcp 1 2 3 4 5 6 7 8 9 10\n".toList (by decide) (by decide)).1 (by decide)
  rw [h]
  decide

/-! ## Claim C10 -/

theorem withNewly_ok {w : List mountstats_t} {r : StepResult}
    {st' : proc_self_mountstats_state_e} {m' : mountstats_t}
    {nw : List mountstats_t} (h : withNewly w r = .ok st' m' nw) :
    ∃ nw0, r = .ok st' m' nw0 := by
  cases r with
  | ok a b c =>
    unfold withNewly at h
    cases h
    exact ⟨c, rfl⟩
  | err c => simp [withNewly] at h

theorem handleStart_preserves_xprt {m : mountstats_t} {buf : List Char}
    {st' : proc_self_mountstats_state_e} {m' : mountstats_t}
    {nw : List mountstats_t} (h : handleStart m buf = .ok st' m' nw) :
    m'.xprt_type = m.xprt_type ∧ m'.xprt = m.xprt := by
  unfold handleStart at h
  split at h
  · unfold hsDevice at h
    split at h
    · simp at h
    · split at h
      · split at h
        · simp at h
        · cases h; exact ⟨rfl, rfl⟩
      · cases h; exact ⟨rfl, rfl⟩
  · simp at h

theorem hdnAt_preserves_xprt {m : mountstats_t} {s : List Char}
    {st' : proc_self_mountstats_state_e} {m' : mountstats_t}
    {nw : List mountstats_t}
    (hx : "xprt:".toList.isPrefixOf s = false)
    (h : hdnAt m s = .ok st' m' nw) :
    m'.xprt_type = m.xprt_type ∧ m'.xprt = m.xprt := by
  unfold hdnAt at h
  by_cases h1 : "age:".toList.isPrefixOf s = true
  · rw [if_pos h1] at h
    unfold hdnAge at h
    split at h
    · simp at h
    · split at h
      · simp at h
      · cases h; exact ⟨rfl, rfl⟩
  · rw [if_neg h1] at h
    by_cases h2 : "events:".toList.isPrefixOf s = true
    · rw [if_pos h2] at h
      unfold hdnEvents at h
      split at h
      · cases h; exact ⟨rfl, rfl⟩
      · simp at h
    · rw [if_neg h2] at h
      by_cases h3 : "bytes:".toList.isPrefixOf s = true
      · rw [if_pos h3] at h
        unfold hdnBytes at h
        split at h
        · cases h; exact ⟨rfl, rfl⟩
        · simp at h
      · rw [if_neg h3, hx, if_neg (by decide)] at h
        by_cases h5 : "per-op statistics".toList.isPrefixOf s = true
        · rw [if_pos h5] at h
          cases h; exact ⟨rfl, rfl⟩
        · rw [if_neg h5] at h
          cases h; exact ⟨rfl, rfl⟩

theorem hpoAt_preserves_xprt {m : mountstats_t} {s : List Char}
    {st' : proc_self_mountstats_state_e} {m' : mountstats_t}
    {nw : List mountstats_t} (h : hpoAt m s = .ok st' m' nw) :
    m'.xprt_type = m.xprt_type ∧ m'.xprt = m.xprt := by
  cases s with
  | nil =>
    unfold hpoAt at h
    cases h; exact ⟨rfl, rfl⟩
  | cons c cs =>
    unfold hpoAt at h
    dsimp only at h
    by_cases hc : (c == '\n') = true
    · rw [if_pos hc] at h
      cases h; exact ⟨rfl, rfl⟩
    · rw [if_neg hc] at h
      unfold hpoEntry at h
      split at h
      · cases h; exact ⟨rfl, rfl⟩
      · simp at h

theorem stepLine_preserves_default_xprt {st : proc_self_mountstats_state_e}
    {m : mountstats_t} {l : List Char} {st' : proc_self_mountstats_state_e}
    {m' : mountstats_t} {nw : List mountstats_t}
    (hx : "xprt:".toList.isPrefixOf (l.dropWhile isSpaceTab) = false)
    (h : stepLine st m l = .ok st' m' nw)
    (h1 : m.xprt_type = .nfs_xprt_type_tcp)
    (h2 : m.xprt = List.replicate NB_NFS_XPRT_ANY 0) :
    m'.xprt_type = .nfs_xprt_type_tcp ∧ m'.xprt = List.replicate NB_NFS_XPRT_ANY 0 := by
  unfold stepLine at h
  split at h
  · obtain ⟨nw0, hr⟩ := withNewly_ok h
    have := @handleStart_preserves_xprt clear_mountstats _ _ _ _ hr
    exact ⟨this.1, this.2⟩
  · split at h
    · obtain ⟨nw0, hr⟩ := withNewly_ok h
      have := handleStart_preserves_xprt hr
      rw [this.1, this.2]
      exact ⟨h1, h2⟩
    · obtain ⟨nw0, hr⟩ := withNewly_ok h
      cases st with
      | psm_state_start =>
        have := handleStart_preserves_xprt hr
        rw [this.1, this.2]
        exact ⟨h1, h2⟩
      | psm_state_check_device => simp [runState] at hr
      | psm_state_device_nfs =>
        unfold runState handleDeviceNfs at hr
        have := hdnAt_preserves_xprt hx hr
        rw [this.1, this.2]
        exact ⟨h1, h2⟩
      | psm_state_device_nfs_per_opt_stats =>
        unfold runState handlePerOp at hr
        have := hpoAt_preserves_xprt hr
        rw [this.1, this.2]
        exact ⟨h1, h2⟩

theorem runLines_preserves_default_xprt (lines : List (List Char)) :
    ∀ (st : proc_self_mountstats_state_e) (m : mountstats_t)
      (st' : proc_self_mountstats_state_e) (m' : mountstats_t)
      (d : List mountstats_t),
      runLines st m lines = .ok st' m' d →
      (∀ l ∈ lines, "xprt:".toList.isPrefixOf (l.dropWhile isSpaceTab) = false) →
      m.xprt_type = .nfs_xprt_type_tcp → m.xprt = List.replicate NB_NFS_XPRT_ANY 0 →
      (m'.xprt_type = .nfs_xprt_type_tcp ∧
        m'.xprt = List.replicate NB_NFS_XPRT_ANY 0) ∧
      ∀ r ∈ d, r.xprt_type = .nfs_xprt_type_tcp ∧
        r.xprt = List.replicate NB_NFS_XPRT_ANY 0 := by
  induction lines with
  | nil =>
    intro st m st' m' d h hl h1 h2
    rw [runLines] at h
    cases h
    exact ⟨⟨h1, h2⟩, by simp⟩
  | cons l ls ih =>
    intro st m st' m' d h hl h1 h2
    rw [runLines] at h
    cases hs : stepLine st m l with
    | ok stA mA nw =>
      rw [hs] at h
      dsimp only at h
      cases hr : runLines stA mA ls with
      | ok stB mB dB =>
        rw [hr] at h
        unfold prependDispatched at h
        injection h with e1 e2 e3
        subst e1
        subst e2
        subst e3
        have hstep := stepLine_preserves_default_xprt (hl l (by simp)) hs h1 h2
        have hrec := ih stA mA stB mB dB hr
          (fun x hx => hl x (List.mem_cons_of_mem l hx)) hstep.1 hstep.2
        refine ⟨hrec.1, ?_⟩
        intro r hrmem
        rw [List.mem_append] at hrmem
        rcases hrmem with hr1 | hr2
        · obtain ⟨hrm, _⟩ := @mem_stepLine_newly st m l r
            (by rw [hs]; exact hr1)
          rw [hrm]
          exact ⟨h1, h2⟩
        · exact hrec.2 r hr2
      | err dB =>
        rw [hr] at h
        unfold prependDispatched at h
        simp at h
    | err nw =>
      rw [hs] at h
      simp at h

/-- C10 counterexample: the claim asserts that every dispatched record
whose block had no xprt: line still gets a transport sample emitted.  A
record is dispatched whenever its mountpoint is non-NULL, but when the
resolved policy has show false the dispatcher returns before emitting
anything (nfs.c lines 722-724), so this dispatched record with the default
(TCP, all-zero) transport state produces no transport sample at all. -/
theorem c10_suppressed_record_counterexample :
    dispatch_mountstats (recordAt "/d".toList 7200) = [recordAt "/d".toList 7200] ∧
    (recordAt "/d".toList 7200).xprt_type = .nfs_xprt_type_tcp ∧
    (recordAt "/d".toList 7200).xprt = List.replicate NB_NFS_XPRT_ANY 0 ∧
    mountstats_submit [("all".toList, mkConfigItem 0 [] false)]
      (recordAt "/d".toList 7200) = [] := by
  exact ⟨rfl, rfl, rfl, rfl⟩

/-- C10 amended: a record whose device block contained no xprt: line keeps the
cleared transport state: transportKind stays TCP (the zero enumerator) and
the transport array stays all zeros, both for the in-flight record and for
every record such a pass dispatches; and for any record in that state that
passes the show and min-age filters, the dispatcher still emits a
transport sample set, typed nfsclient_xprttcp, whose ten counter values
(the TCP catalog size) are all zero. -/
theorem c10_default_tcp_zero_transport :
    (∀ (lines : List (List Char)) (st : proc_self_mountstats_state_e)
      (m : mountstats_t) (st' : proc_self_mountstats_state_e)
      (m' : mountstats_t) (d : List mountstats_t),
      runLines st m lines = .ok st' m' d →
      (∀ l ∈ lines, "xprt:".toList.isPrefixOf (l.dropWhile isSpaceTab) = false) →
      m.xprt_type = .nfs_xprt_type_tcp → m.xprt = List.replicate NB_NFS_XPRT_ANY 0 →
      (m'.xprt_type = .nfs_xprt_type_tcp ∧
        m'.xprt = List.replicate NB_NFS_XPRT_ANY 0) ∧
      ∀ r ∈ d, r.xprt_type = .nfs_xprt_type_tcp ∧
        r.xprt = List.replicate NB_NFS_XPRT_ANY 0) ∧
    (∀ (cfg : List (List Char × nfs_mountpoints_config_t)) (m : mountstats_t)
      (item : nfs_mountpoints_config_t),
      resolveConfig cfg (m.mountpoint.getD []) = some item →
      item.show_ = true → ¬(m.age < item.min_age ∧ item.min_age ≠ 0) →
      m.xprt_type = .nfs_xprt_type_tcp → m.xprt = List.replicate NB_NFS_XPRT_ANY 0 →
      (mountstats_submit cfg m).get? 3 =
        some ⟨(m.mountpoint.getD []).map sanitizeChar, "nfsclient_xprttcp".toList,
              [], List.replicate NB_NFS_XPRT_TCP 0⟩) := by
  refine ⟨runLines_preserves_default_xprt, ?_⟩
  intro cfg m item hres hshow hfilter ht hx
  unfold mountstats_submit
  rw [hres]
  dsimp only
  rw [hshow, if_neg (by decide), if_neg hfilter]
  unfold submitSamples
  rw [List.get?_cons_succ, List.get?_cons_succ, List.get?_cons_succ,
    List.get?_cons_zero]
  unfold xprtSample
  rw [ht]
  dsimp only
  rw [hx]
  rfl

/-- Witness for C10: a device block made of a device line and an age line
(no xprt: line) leaves the record with TCP transport kind and a zeroed
transport array, and dispatching it through the default wildcard policy
emits the all-zero nfsclient_xprttcp sample in fourth position. -/
theorem c10_default_tcp_zero_transport_witness :
    ((recordAt "/a".toList 7200).xprt_type = .nfs_xprt_type_tcp ∧
      (recordAt "/a".toList 7200).xprt = List.replicate NB_NFS_XPRT_ANY 0) ∧
    (mountstats_submit cfgMinAge3600 (recordAt "/a".toList 7200)).get? 3 =
      some ⟨((recordAt "/a".toList 7200).mountpoint.getD []).map sanitizeChar,
            "nfsclient_xprttcp".toList, [], List.replicate NB_NFS_XPRT_TCP 0⟩ :=
  ⟨((c10_default_tcp_zero_transport.1
      ["device s mounted on /a with fstype nfs4\n".toList, "age: 7200\n".toList]
      .psm_state_start clear_mountstats .psm_state_device_nfs
      (recordAt "/a".toList 7200) []
      (by decide) (by decide) rfl rfl)).1,
   c10_default_tcp_zero_transport.2 cfgMinAge3600 (recordAt "/a".toList 7200)
     { min_age := 3600, perop_statistics := none, perop_statistics_string := none,
       show_ := true }
     (by decide) rfl (by decide) rfl rfl⟩

end CollectdNfs
